import Mathlib

/-!
Shallow embedding of the reactive flag-change layer of the
`launchdarkly-angular` repository (`src/lib/services/launchdarkly.service.ts`
and `src/lib/interfaces/launchdarkly.interface.ts`), together with the RxJS
operators and the `fast-deep-equal` comparator that the service composes.
Machine-checked statements about the embedded definitions follow the
definitions.
-/

namespace LDAngular

/-- A JSON-like flag value (`LDFlagValue` in the SDK typings): booleans,
numbers, strings, null, arrays and objects.  Objects are finite association
lists of string keys to values. -/
inductive LDValue where
  | null : LDValue
  | bool (b : Bool) : LDValue
  | num (n : Int) : LDValue
  | str (s : String) : LDValue
  | arr (elems : List LDValue) : LDValue
  | obj (fields : List (String × LDValue)) : LDValue

/-- A JavaScript exception / promise-rejection value, reduced to its
message. -/
structure LDError where
  msg : String
deriving DecidableEq, Repr

mutual

/-- The `fast-deep-equal` comparator used by the service's
`distinctUntilChanged` stages: primitives by value, arrays by length and
pointwise comparison, objects by key count plus per-key lookup (so object
comparison is key-order insensitive), mixed shapes unequal. -/
def deepEqual : LDValue → LDValue → Bool
  | LDValue.null, LDValue.null => true
  | LDValue.bool a, LDValue.bool b => a == b
  | LDValue.num a, LDValue.num b => a == b
  | LDValue.str a, LDValue.str b => a == b
  | LDValue.arr as, LDValue.arr bs => deepEqualList as bs
  | LDValue.obj fs, LDValue.obj gs =>
      fs.length == gs.length && deepEqualFields fs gs
  | _, _ => false

/-- Array branch of `fast-deep-equal`: equal length and pointwise deep
equality. -/
def deepEqualList : List LDValue → List LDValue → Bool
  | [], [] => true
  | a :: as, b :: bs => deepEqual a b && deepEqualList as bs
  | _, _ => false

/-- Object branch of `fast-deep-equal`: every field of the left object must
be matched in the right object. -/
def deepEqualFields : List (String × LDValue) → List (String × LDValue) → Bool
  | [], _ => true
  | (k, v) :: rest, gs => deepEqualFieldIn k v gs && deepEqualFields rest gs

/-- Look up key `k` in the right-hand object and deep-compare the value. -/
def deepEqualFieldIn (k : String) (v : LDValue) : List (String × LDValue) → Bool
  | [] => false
  | (k', w) :: rest => if k = k' then deepEqual v w else deepEqualFieldIn k v rest

end

/-- The stateful core of RxJS `distinctUntilChanged(comparator)`: `last` is
the most recently emitted value; an incoming value equal (per `r`) to `last`
is suppressed, otherwise it is emitted and becomes the new `last`. -/
def distinctGo (r : α → α → Bool) : α → List α → List α
  | _, [] => []
  | last, y :: ys => if r last y then distinctGo r last ys else y :: distinctGo r y ys

/-- RxJS `distinctUntilChanged(comparator)` over a finite emission list:
the first value is always emitted, later values go through `distinctGo`. -/
def distinctUntilChangedBy (r : α → α → Bool) : List α → List α
  | [] => []
  | x :: xs => x :: distinctGo r x xs

/-- Modelled from the spec: "the output stream equals the input value stream
with consecutive structural duplicates removed".  Stated as the textbook
consecutive-duplicate removal, independently of the RxJS operator above. -/
def removeConsecutiveDupsBy (r : α → α → Bool) : List α → List α
  | [] => []
  | [x] => [x]
  | x :: y :: rest =>
    if r x y then removeConsecutiveDupsBy r (x :: rest)
    else x :: removeConsecutiveDupsBy r (y :: rest)
termination_by l => l.length

/-- The RxJS operator and the spec's consecutive-duplicate removal agree on
every tail, relative to a last-emitted value. -/
lemma removeConsecutiveDupsBy_cons (r : α → α → Bool) :
    ∀ (ys : List α) (x : α),
      removeConsecutiveDupsBy r (x :: ys) = x :: distinctGo r x ys := by
  intro ys
  induction ys with
  | nil => intro x; simp [removeConsecutiveDupsBy, distinctGo]
  | cons y ys ih =>
    intro x
    by_cases h : r x y = true
    · simp [removeConsecutiveDupsBy, distinctGo, h, ih]
    · simp [removeConsecutiveDupsBy, distinctGo, h, ih]

/-- `distinctUntilChangedBy` is exactly consecutive-duplicate removal. -/
lemma distinctUntilChangedBy_eq_removeConsecutiveDupsBy (r : α → α → Bool) :
    ∀ l : List α, distinctUntilChangedBy r l = removeConsecutiveDupsBy r l := by
  intro l
  cases l with
  | nil => simp [distinctUntilChangedBy, removeConsecutiveDupsBy]
  | cons x xs => simp [distinctUntilChangedBy, removeConsecutiveDupsBy_cons]

/-- Evaluation reason of an `LDEvaluationDetail` (only the fields this layer
constructs or forwards). -/
structure EvalReason where
  kind : String
  errorKind : Option String
deriving DecidableEq, Repr

/-- `LDEvaluationDetail`: a value plus provenance metadata. -/
structure LDEvaluationDetail where
  value : LDValue
  variationIndex : Option Nat
  reason : EvalReason

/-- `FlagChangeEvent` from `launchdarkly.interface.ts`: one flag's
transition.  `previous = none` models the JavaScript `undefined`. -/
structure FlagChangeEvent where
  key : String
  current : LDValue
  previous : Option LDValue

/-- The wrapped external SDK client, opaque to this layer.  Its calls are
JavaScript functions and may throw, so they return `Except`; a non-throwing
call returns `Except.ok`.  `allFlags` is the client's current flag store as
exposed by `client.allFlags()`. -/
structure Client where
  variationImpl : String → LDValue → Except LDError LDValue
  variationDetailImpl : String → LDValue → Except LDError LDEvaluationDetail
  allFlags : List (String × LDValue)

namespace LaunchDarklyService

/-- `LaunchDarklyService.variation` (private): read one flag value through
the client currently stored in `clientSubject$` (`clientToUse`); when no
client is present the caller-supplied fallback is returned.  The source has
no try/catch around `clientToUse.variation`, so a throw from the client call
is returned as `Except.error`. -/
def variation (clientToUse : Option Client) (key : String) (fallback : LDValue) :
    Except LDError LDValue :=
  match clientToUse with
  | none => Except.ok fallback
  | some c => c.variationImpl key fallback

/-- `LaunchDarklyService.variationDetail` (private): like `variation` but
returning the evaluation detail; with no client present it synthesizes a
`CLIENT_NOT_READY` error detail carrying the fallback value.  As in the
source, a throw from `clientToUse.variationDetail` is not caught. -/
def variationDetail (clientToUse : Option Client) (key : String) (fallback : LDValue) :
    Except LDError LDEvaluationDetail :=
  match clientToUse with
  | none =>
    Except.ok
      { value := fallback
        variationIndex := none
        reason := { kind := "ERROR", errorKind := some "CLIENT_NOT_READY" } }
  | some c => c.variationDetailImpl key fallback

end LaunchDarklyService

/-- One delivery of a flag-change event on `flagChangesSubject$`, together
with the client stored in `clientSubject$` at the moment the `map` callback
runs (`this.variation` re-reads the current client on each event). -/
structure Delivery where
  clientAtDelivery : Option Client
  event : FlagChangeEvent

/-- The sequence of raw reads feeding `variation$(key, fallback)`:
`startWith` prepends the read made when `variation$` is called (against the
client `client0` stored at that moment), and each delivered event whose key
matches (the `onFlagChange$` filter) triggers a fresh read. -/
def variationReads (client0 : Option Client) (key : String) (fallback : LDValue)
    (ds : List Delivery) : List (Except LDError LDValue) :=
  LaunchDarklyService.variation client0 key fallback ::
    (ds.filter (fun d => d.event.key == key)).map
      (fun d => LaunchDarklyService.variation d.clientAtDelivery key fallback)

/-- RxJS error semantics for a chain of possibly-throwing reads: values are
emitted until the first throwing read; a throw becomes an error notification
that terminates the stream. -/
def collectOk : List (Except LDError α) → List α × Option LDError
  | [] => ([], none)
  | Except.ok v :: rest =>
    let p := collectOk rest
    (v :: p.1, p.2)
  | Except.error e :: _ => ([], some e)

/-- `variation$(key, fallback)` observed over a finite run: the value
emissions (after the `distinctUntilChanged(equal)` stage) and the error
notification, if a read threw. -/
def variationStream (client0 : Option Client) (key : String) (fallback : LDValue)
    (ds : List Delivery) : List LDValue × Option LDError :=
  let p := collectOk (variationReads client0 key fallback ds)
  (distinctUntilChangedBy deepEqual p.1, p.2)

/-- One observable side effect of the bridge's event handlers, in execution
order: a `next` on `isInitializedSubject$` or a `next` on
`flagChangesSubject$`. -/
inductive BridgeAction where
  | setReady (value : Bool)
  | publish (event : FlagChangeEvent)

/-- The synthetic change events the `initialized` handler publishes: one per
flag in `client.allFlags()`, with `previous = undefined`. -/
def syntheticEvents (client : Client) : List FlagChangeEvent :=
  client.allFlags.map (fun kv => { key := kv.1, current := kv.2, previous := none })

/-- The `client.on('initialized', …)` handler of `_setClient`, as the ordered
list of subject emissions it performs: first
`isInitializedSubject$.next(true)`, then one `flagChangesSubject$.next` per
entry of `client.allFlags()` with `previous = undefined`. -/
def onInitializedActions (client : Client) : List BridgeAction :=
  BridgeAction.setReady true ::
    client.allFlags.map
      (fun kv => BridgeAction.publish { key := kv.1, current := kv.2, previous := none })

/-- The bridge-owned state the actions act on: the readiness subject's
current value and the log of events published on the change subject. -/
structure BridgeState where
  isInitialized : Bool
  published : List FlagChangeEvent

/-- Apply one bridge action to the bridge state. -/
def applyAction (st : BridgeState) : BridgeAction → BridgeState
  | BridgeAction.setReady b => { st with isInitialized := b }
  | BridgeAction.publish e => { st with published := st.published ++ [e] }

/-- Run one external `initialized` signal through the handler. -/
def runInitialized (client : Client) (st : BridgeState) : BridgeState :=
  (onInitializedActions client).foldl applyAction st

/-!
Timed-trace semantics for the readiness gate.  An observable run is a finite
list of `(time, value)` emissions, times in milliseconds from an arbitrary
origin.  The readiness subject is driven by at most one external
`initialized` signal at time `tInit` (the handler calls
`isInitializedSubject$.next(true)` then; `none` means initialization never
completes during the run).
-/

/-- `isInitializedSubject$` (a `BehaviorSubject<boolean>` starting at
`false`) as seen by a subscriber arriving at time `sub`: the current value
is replayed at subscription, and the `true` transition is delivered at
`tInit` if it happens after subscription. -/
def behaviorTrace (tInit : Option Nat) (sub : Nat) : List (Nat × Bool) :=
  match tInit with
  | none => [(sub, false)]
  | some t => if t ≤ sub then [(sub, true)] else [(sub, false), (t, true)]

/-- RxJS `race(a, b)` on finite traces: the source whose first emission is
earliest wins outright (ties resolved in favour of the first argument, the
order the sources are subscribed). -/
def race2 (a b : List (Nat × Bool)) : List (Nat × Bool) :=
  match a, b with
  | [], _ => b
  | _, [] => a
  | (ta, _) :: _, (tb, _) :: _ => if ta ≤ tb then a else b

/-- The inner observable `waitForInitialization$` hands to `switchMap`,
subscribed at time `t` with the outer emission `isInitialized`: if already
initialized, the readiness subject itself; otherwise
`race(timer(timeoutMs).map(() => false), isInitializedSubject$.filter(init => init))`
followed by `take(1)` and `concatMap(() => isInitializedSubject$)` — the
race's single result only decides when the subject is re-subscribed. -/
def innerWait (timeoutMs : Nat) (tInit : Option Nat) (t : Nat) (isInitialized : Bool) :
    List (Nat × Bool) :=
  if isInitialized then behaviorTrace tInit t
  else
    match (race2 [(t + timeoutMs, false)]
        ((behaviorTrace tInit t).filter (fun p => p.2))).take 1 with
    | [] => []
    | (s, _) :: _ => behaviorTrace tInit s

/-- RxJS `switchMap` on finite traces: each outer emission subscribes a new
inner observable at the emission's time and unsubscribes the previous one,
so a previous inner's emissions survive only strictly before the next outer
emission. -/
def switchTrace (inner : Nat → Bool → List (Nat × Bool)) :
    List (Nat × Bool) → List (Nat × Bool)
  | [] => []
  | [(t, b)] => inner t b
  | (t, b) :: (tNext, b') :: rest =>
    (inner t b).filter (fun p => p.1 < tNext) ++ switchTrace inner ((tNext, b') :: rest)

/-- `waitForInitialization$(timeoutMs)` subscribed at time `sub`:
`isInitializedSubject$.pipe(switchMap(...))` with the inner observable of
`innerWait`. -/
def waitForInitializationTrace (timeoutMs : Nat) (tInit : Option Nat) (sub : Nat) :
    List (Nat × Bool) :=
  switchTrace (innerWait timeoutMs tInit) (behaviorTrace tInit sub)

/-- A subscriber-visible notification: a boolean `next` or an error
notification, each carrying its delivery time. -/
inductive Notif where
  | next (t : Nat) (b : Bool)
  | err (t : Nat)
deriving DecidableEq, Repr

/-- Whether a notification is a plain `next`. -/
def Notif.isNext : Notif → Bool
  | Notif.next _ _ => true
  | Notif.err _ => false

/-- RxJS `catchError(handler)` on finite notification traces: notifications
pass through until the first error, which unsubscribes the source and
splices in the handler's replacement observable, subscribed at the error's
time. -/
def catchErrorTrace (repl : Nat → List Notif) : List Notif → List Notif
  | [] => []
  | Notif.next t b :: rest => Notif.next t b :: catchErrorTrace repl rest
  | Notif.err t :: _ => repl t

/-- The replacement observable `waitUntilReady$`'s `catchError` returns:
`isInitializedSubject$.asObservable().pipe(startWith(false))`, subscribed at
time `t`. -/
def readinessFallback (tInit : Option Nat) (t : Nat) : List Notif :=
  Notif.next t false :: (behaviorTrace tInit t).map (fun p => Notif.next p.1 p.2)

/-- The `catchError` stage of `waitUntilReady$(timeoutMs)`, applied to an
arbitrary underlying chain trace. -/
def waitUntilReadyOn (tInit : Option Nat) (chain : List Notif) : List Notif :=
  catchErrorTrace (readinessFallback tInit) chain

/-- `waitUntilReady$(timeoutMs)` subscribed at time `sub`:
`waitForInitialization$(timeoutMs)` under the `catchError` stage. -/
def waitUntilReadyTrace (timeoutMs : Nat) (tInit : Option Nat) (sub : Nat) : List Notif :=
  waitUntilReadyOn tInit
    ((waitForInitializationTrace timeoutMs tInit sub).map (fun p => Notif.next p.1 p.2))

/-!
Promise-level operations: `setContext`, `track`, `flush`.  A settled
JavaScript promise is modelled by its settle time (milliseconds after the
call) and its result.
-/

/-- A settled promise: when it settles and whether it resolves or rejects. -/
structure AsyncOutcome where
  settleMs : Nat
  result : Except LDError Unit

/-- The `TimeoutError` rejection `setContext` constructs. -/
def timeoutError : LDError := { msg := "TimeoutError" }

/-- `setContext(context, timeoutMs?)` after `getClient()` resolves:
`Promise.race([client.identify(context).then(() => void 0), timeoutPromise])`
where `timeoutPromise` is `Promise.resolve()` when `timeoutMs` is absent —
or `0`, which is falsy in `timeoutMs ? … : Promise.resolve()` — and a
rejection with `TimeoutError` after `timeoutMs` otherwise.  An
already-resolved promise wins the race immediately; with a real timer, the
race settles with whichever side settles first. -/
def setContextOutcome (identify : AsyncOutcome) (timeoutMs : Option Nat) : AsyncOutcome :=
  match timeoutMs with
  | none => { settleMs := 0, result := Except.ok () }
  | some tm =>
    if tm = 0 then { settleMs := 0, result := Except.ok () }
    else if identify.settleMs < tm then identify
    else { settleMs := tm, result := Except.error timeoutError }

/-- `track(key, data?, metricValue?)`: returns `void` to the caller; the
underlying `getClient().then(client => client.track(...))` chain ends in a
`.catch` that logs.  The first component is what the caller can ever
observe (nothing; no promise, no throw), the second the logged message, if
any. -/
def trackRun (clientTrack : Except LDError Unit) : Except LDError Unit × Option String :=
  match clientTrack with
  | Except.ok _ => (Except.ok (), none)
  | Except.error _ =>
    (Except.ok (), some "[LaunchDarkly Service] Unexpected rejection when tracking event:")

/-- `flush()` after `getClient()` resolves: `return client.flush()` — the
client's outcome is returned to the caller unchanged. -/
def flushRun (clientFlush : Except LDError Unit) : Except LDError Unit :=
  clientFlush

/-- The service state `_initialize` guards: the client reference stored in
`clientSubject$`. -/
structure ServiceState where
  client : Option Client

/-- `_initialize`: if a client is already stored, log an error (`true` in
the second component) and return with the state untouched; otherwise store
the freshly constructed client (`initialize(clientId, context, options)` is
external, so the client it would build is a parameter). -/
def initStep (st : ServiceState) (newClient : Client) : ServiceState × Bool :=
  match st.client with
  | some _ => (st, true)
  | none => ({ st with client := some newClient }, false)

/-!
Concrete clients used to instantiate the statements below.
-/

/-- A client whose `variation`/`variationDetail` calls throw. -/
def throwingClient : Client where
  variationImpl := fun _ _ => Except.error { msg := "boom" }
  variationDetailImpl := fun _ _ => Except.error { msg := "boom" }
  allFlags := []

/-- A client that knows one flag `A = 1` and evaluates to the fallback. -/
def clientA : Client where
  variationImpl := fun _ fallback => Except.ok fallback
  variationDetailImpl := fun _ fallback =>
    Except.ok { value := fallback, variationIndex := none, reason := { kind := "OFF", errorKind := none } }
  allFlags := [("A", LDValue.num 1)]

/-- A client whose `variation` call returns the value `7` for every key. -/
def sevenClient : Client where
  variationImpl := fun _ _ => Except.ok (LDValue.num 7)
  variationDetailImpl := fun _ _ =>
    Except.ok { value := LDValue.num 7, variationIndex := some 0, reason := { kind := "FALLTHROUGH", errorKind := none } }
  allFlags := [("beta", LDValue.num 7)]

/-- Running the publish actions of a flag list appends exactly those events
to the published log and leaves the readiness flag alone. -/
lemma foldl_applyAction_publish (kvs : List (String × LDValue)) :
    ∀ st : BridgeState,
      (kvs.map (fun kv => BridgeAction.publish { key := kv.1, current := kv.2, previous := none })).foldl
          applyAction st
        = { st with published :=
              st.published ++ kvs.map (fun kv => { key := kv.1, current := kv.2, previous := none }) } := by
  induction kvs with
  | nil => intro st; simp
  | cons kv rest ih =>
    intro st
    simp only [List.map_cons, List.foldl_cons, applyAction, ih, List.map]
    simp [List.append_assoc]

/-- The `initialized` handler, run on any bridge state: readiness is set and
the synthetic events are appended, in that order. -/
lemma runInitialized_eq (c : Client) (st : BridgeState) :
    runInitialized c st
      = { isInitialized := true, published := st.published ++ syntheticEvents c } := by
  simp only [runInitialized, onInitializedActions, List.foldl_cons, applyAction,
    foldl_applyAction_publish, syntheticEvents]

/-- C1: the claim states that a throwing client read is swallowed and
replaced by the fallback; on the embedded code a thrown `variation` is not
caught, so the read result is the error, not the fallback. -/
theorem variation_throw_not_swallowed_cex :
    LaunchDarklyService.variation (some throwingClient) "beta" (LDValue.bool false)
        = Except.error { msg := "boom" } ∧
      LaunchDarklyService.variation (some throwingClient) "beta" (LDValue.bool false)
        ≠ Except.ok (LDValue.bool false) := by
  refine ⟨rfl, ?_⟩
  intro h
  exact Except.noConfusion h

/-- C1 (amended): with no client present, `variation` yields the fallback
and `variationDetail` a synthesized `CLIENT_NOT_READY` detail carrying the
fallback, without error; with a client present both wrappers forward the
client call unchanged, so a thrown client call propagates — in particular
the per-key stream errors out with zero emissions instead of emitting the
fallback. -/
theorem variation_fallback_missing_client_throw_propagates :
    (∀ key fallback, LaunchDarklyService.variation none key fallback = Except.ok fallback) ∧
    (∀ key fallback, LaunchDarklyService.variationDetail none key fallback
        = Except.ok { value := fallback, variationIndex := none,
                      reason := { kind := "ERROR", errorKind := some "CLIENT_NOT_READY" } }) ∧
    (∀ c key fallback,
        LaunchDarklyService.variation (some c) key fallback = c.variationImpl key fallback) ∧
    (∀ c key fallback,
        LaunchDarklyService.variationDetail (some c) key fallback
          = c.variationDetailImpl key fallback) ∧
    variationStream (some throwingClient) "beta" (LDValue.bool false) []
      = ([], some { msg := "boom" }) :=
  ⟨fun _ _ => rfl, fun _ _ => rfl, fun _ _ _ => rfl, fun _ _ _ => rfl, rfl⟩

/-- C2: the claim states that on `initialized` the synthetic per-flag events
are published first and the readiness flip comes after; the embedded handler
performs the readiness flip first. -/
theorem ready_flip_precedes_publish_cex :
    onInitializedActions clientA
        = [BridgeAction.setReady true,
           BridgeAction.publish { key := "A", current := LDValue.num 1, previous := none }] ∧
      onInitializedActions clientA
        ≠ [BridgeAction.publish { key := "A", current := LDValue.num 1, previous := none },
           BridgeAction.setReady true] := by
  refine ⟨rfl, ?_⟩
  intro h
  have h' : BridgeAction.setReady true
      = BridgeAction.publish { key := "A", current := LDValue.num 1, previous := none } :=
    List.head_eq_of_cons_eq h
  exact BridgeAction.noConfusion h'

/-- C2 (amended): on each external `initialized` signal the handler first
flips readiness to true and then publishes one synthetic change event per
currently-known flag with `previous = undefined`; the handler is unguarded,
so a repeated signal re-publishes the synthetic events (readiness merely
stays true). -/
theorem ready_flip_then_synthetic_events :
    (∀ c st, (runInitialized c st).isInitialized = true) ∧
    (∀ c st, (runInitialized c st).published = st.published ++ syntheticEvents c) ∧
    (∀ c, (onInitializedActions c).head? = some (BridgeAction.setReady true)) ∧
    (∀ c st, (runInitialized c (runInitialized c st)).published
        = st.published ++ syntheticEvents c ++ syntheticEvents c) := by
  refine ⟨?_, ?_, ?_, ?_⟩
  · intro c st; rw [runInitialized_eq]
  · intro c st; rw [runInitialized_eq]
  · intro c; simp [onInitializedActions]
  · intro c st; rw [runInitialized_eq, runInitialized_eq]

/-- C3: the value emissions of `variation$` are exactly the computed read
values with consecutive `fast-deep-equal` duplicates removed; an adjacent
deep-equal pair yields a single emission, an adjacent non-deep-equal pair
yields both. -/
theorem variation_stream_dedups_consecutive :
    (∀ client0 key fallback ds,
        (variationStream client0 key fallback ds).1
          = removeConsecutiveDupsBy deepEqual
              (collectOk (variationReads client0 key fallback ds)).1) ∧
    (∀ v w : LDValue, deepEqual v w = true →
        distinctUntilChangedBy deepEqual [v, w] = [v]) ∧
    (∀ v w : LDValue, deepEqual v w = false →
        distinctUntilChangedBy deepEqual [v, w] = [v, w]) := by
  refine ⟨?_, ?_, ?_⟩
  · intro client0 key fallback ds
    simp only [variationStream]
    exact distinctUntilChangedBy_eq_removeConsecutiveDupsBy _ _
  · intro v w h; simp [distinctUntilChangedBy, distinctGo, h]
  · intro v w h; simp [distinctUntilChangedBy, distinctGo, h]

/-- C3 witness: two deep-equal objects that differ in key order (so are not
syntactically identical) collapse to one emission; two different numbers both
emit. -/
theorem variation_stream_dedups_consecutive_witness :
    distinctUntilChangedBy deepEqual
        [LDValue.obj [("a", LDValue.num 1), ("b", LDValue.num 2)],
         LDValue.obj [("b", LDValue.num 2), ("a", LDValue.num 1)]]
      = [LDValue.obj [("a", LDValue.num 1), ("b", LDValue.num 2)]] ∧
    distinctUntilChangedBy deepEqual [LDValue.num 1, LDValue.num 2]
      = [LDValue.num 1, LDValue.num 2] :=
  ⟨variation_stream_dedups_consecutive.2.1 _ _
      (by simp [deepEqual, deepEqualFields, deepEqualFieldIn]),
   variation_stream_dedups_consecutive.2.2 _ _ (by simp [deepEqual])⟩

/-- C4: a subscriber's first value is synchronous — the fallback when no
client is stored (for every key and every event run, including runs that
never mention the key), and the client's current read when a client is
stored and its call returns normally. -/
theorem variation_stream_first_value :
    (∀ key fallback ds,
        ((variationStream none key fallback ds).1).head? = some fallback) ∧
    (∀ c key fallback ds v, c.variationImpl key fallback = Except.ok v →
        ((variationStream (some c) key fallback ds).1).head? = some v) := by
  constructor
  · intro key fallback ds
    simp [variationStream, variationReads, LaunchDarklyService.variation, collectOk,
      distinctUntilChangedBy]
  · intro c key fallback ds v h
    simp [variationStream, variationReads, LaunchDarklyService.variation, h, collectOk,
      distinctUntilChangedBy]

/-- C4 witness: with no client the first value is the fallback; with
`sevenClient` stored it is the client's read `7`. -/
theorem variation_stream_first_value_witness :
    ((variationStream none "beta" (LDValue.bool false) []).1).head?
        = some (LDValue.bool false) ∧
      ((variationStream (some sevenClient) "beta" (LDValue.bool false) []).1).head?
        = some (LDValue.num 7) :=
  ⟨variation_stream_first_value.1 "beta" (LDValue.bool false) [],
   variation_stream_first_value.2 sevenClient "beta" (LDValue.bool false) [] (LDValue.num 7) rfl⟩

/-- C5: subscribing at time `0`, before readiness, with a timeout that
elapses before initialization completes at `tInit`, the gate emits `false`
at the timeout and the same subscription still emits `true` at `tInit`;
when initialization never completes it emits only the `false` at the
timeout. -/
theorem gate_timeout_false_then_eventual_true :
    (∀ timeoutMs tInit : Nat, timeoutMs < tInit →
        waitForInitializationTrace timeoutMs (some tInit) 0
          = [(timeoutMs, false), (tInit, true)]) ∧
    (∀ timeoutMs : Nat,
        waitForInitializationTrace timeoutMs none 0 = [(timeoutMs, false)]) := by
  constructor
  · intro timeoutMs tInit h
    have h0 : ¬ tInit ≤ 0 := by omega
    have hT : ¬ tInit ≤ timeoutMs := by omega
    have hle : timeoutMs ≤ tInit := Nat.le_of_lt h
    simp [waitForInitializationTrace, switchTrace, innerWait, behaviorTrace, race2, h0, hT,
      hle, h, Nat.lt_irrefl, List.filter]
  · intro timeoutMs
    simp [waitForInitializationTrace, switchTrace, innerWait, behaviorTrace, race2]

/-- C5 witness: timeout 5 with initialization at 9, and with initialization
never completing. -/
theorem gate_timeout_false_then_eventual_true_witness :
    waitForInitializationTrace 5 (some 9) 0 = [(5, false), (9, true)] ∧
      waitForInitializationTrace 5 none 0 = [(5, false)] :=
  ⟨gate_timeout_false_then_eventual_true.1 5 9 (by decide),
   gate_timeout_false_then_eventual_true.2 5⟩

/-- C6: when readiness flipped at or before the subscription time, the gate
emits `true` at the subscription time itself, for every timeout value
(including `0`) — the already-ready branch bypasses the timer race. -/
theorem gate_already_ready_immediate_true :
    ∀ timeoutMs tInit sub : Nat, tInit ≤ sub →
      waitForInitializationTrace timeoutMs (some tInit) sub = [(sub, true)] := by
  intro timeoutMs tInit sub h
  simp [waitForInitializationTrace, switchTrace, innerWait, behaviorTrace, h]

/-- C6 witness: timeout `0` and readiness already flipped at subscription. -/
theorem gate_already_ready_immediate_true_witness :
    waitForInitializationTrace 0 (some 0) 0 = [(0, true)] :=
  gate_already_ready_immediate_true 0 0 0 (by decide)

/-- Mapping raw `(time, bool)` emissions to `next` notifications yields only
`next` notifications. -/
lemma all_isNext_map_next (l : List (Nat × Bool)) :
    (l.map (fun p => Notif.next p.1 p.2)).all Notif.isNext = true := by
  induction l with
  | nil => rfl
  | cons x xs ih => simp [Notif.isNext, ih]

/-- The `catchError` stage of `waitUntilReady$` leaves no error notification
in the subscriber-visible trace, whatever the underlying chain did. -/
lemma waitUntilReadyOn_all_next (tInit : Option Nat) :
    ∀ chain, (waitUntilReadyOn tInit chain).all Notif.isNext = true := by
  intro chain
  induction chain with
  | nil => rfl
  | cons n rest ih =>
    cases n with
    | next t b =>
      simpa [waitUntilReadyOn, catchErrorTrace, Notif.isNext] using ih
    | err t =>
      simp [waitUntilReadyOn, catchErrorTrace, readinessFallback, Notif.isNext,
        all_isNext_map_next]

/-- C7: `waitUntilReady$` never surfaces an error notification: any error in
the underlying chain is caught and replaced by the readiness stream started
with `false`, so subscribers only ever see boolean `next`s — both for an
arbitrary underlying chain and for the actual
`waitForInitialization$`-backed gate. -/
theorem waitUntilReady_only_boolean_emissions :
    (∀ tInit chain, (waitUntilReadyOn tInit chain).all Notif.isNext = true) ∧
    (∀ timeoutMs tInit sub,
        (waitUntilReadyTrace timeoutMs tInit sub).all Notif.isNext = true) := by
  constructor
  · intro tInit chain
    exact waitUntilReadyOn_all_next tInit chain
  · intro timeoutMs tInit sub
    exact waitUntilReadyOn_all_next tInit _

/-- C8: the claim states that a rejection of the underlying client operation
propagates to the caller for `track` as well; the embedded `track` returns
`void` and its promise chain ends in a `.catch` that logs, so the caller
observes a clean return, not the rejection. -/
theorem track_rejection_swallowed_cex :
    (trackRun (Except.error { msg := "rejected" })).1 = Except.ok () ∧
      (trackRun (Except.error { msg := "rejected" })).1
        ≠ Except.error { msg := "rejected" } := by
  refine ⟨rfl, ?_⟩
  intro h
  exact Except.noConfusion h

/-- C8 (amended): `flush` returns the client's outcome unchanged, so its
rejection propagates; `setContext` propagates `identify`'s rejection exactly
when a positive timeout is supplied and `identify` settles before it (with
no timeout it resolves immediately regardless); `track` never propagates — it
returns cleanly and only logs. -/
theorem operation_rejection_propagation :
    (∀ r : Except LDError Unit, flushRun r = r) ∧
    (∀ r : Except LDError Unit, (trackRun r).1 = Except.ok ()) ∧
    (∀ (identify : AsyncOutcome) (tm : Nat), 0 < tm → identify.settleMs < tm →
        setContextOutcome identify (some tm) = identify) ∧
    (∀ identify : AsyncOutcome,
        setContextOutcome identify none = { settleMs := 0, result := Except.ok () }) := by
  refine ⟨fun _ => rfl, ?_, ?_, fun _ => rfl⟩
  · intro r; cases r <;> rfl
  · intro identify tm h1 h2
    have hne : ¬ tm = 0 := by omega
    simp [setContextOutcome, hne, h2]

/-- C8 witness: an `identify` rejection settling at 3ms under a 10ms timeout
is returned to the caller, as is a `flush` rejection. -/
theorem operation_rejection_propagation_witness :
    setContextOutcome { settleMs := 3, result := Except.error { msg := "rejected" } } (some 10)
        = { settleMs := 3, result := Except.error { msg := "rejected" } } ∧
      flushRun (Except.error { msg := "rejected" }) = Except.error { msg := "rejected" } :=
  ⟨operation_rejection_propagation.2.2.1 _ 10 (by decide) (by decide),
   operation_rejection_propagation.1 _⟩

/-- C9: a second client construction attempt while a client is stored is
skipped: the call returns normally (it is a total function, so no exception),
reports the logged error, and leaves the service state — in particular the
stored client — unchanged. -/
theorem second_init_logged_and_skipped :
    ∀ (st : ServiceState) (c0 newClient : Client), st.client = some c0 →
      initStep st newClient = (st, true) := by
  intro st c0 newClient h
  simp [initStep, h]

/-- C9 witness: re-running construction over a state holding `clientA`. -/
theorem second_init_logged_and_skipped_witness :
    initStep { client := some clientA } sevenClient = ({ client := some clientA }, true) :=
  second_init_logged_and_skipped { client := some clientA } clientA sevenClient rfl

/-- C10: with no timeout argument, `setContext`'s race partner is an
already-resolved promise, so the returned promise settles immediately
(settle time `0`) with a clean resolution, for every behaviour of the
underlying `identify` call — including a later rejection. -/
theorem setContext_no_timeout_resolves_immediately :
    ∀ identify : AsyncOutcome,
      setContextOutcome identify none = { settleMs := 0, result := Except.ok () } :=
  fun _ => rfl

end LDAngular
